import Mathlib

/-!
Shallow embedding of `dgraph/cmd/zero/zero.go` (package `zero`): the
membership-state data model and the coordinator operations
`SetMembershipState`, `removeZero`, `ServingTablet`, the proposal-creation
closure of `Connect`, `createProposals` (the diff used by
`UpdateMembership`), and `ShouldServe`.

Go maps are modelled as optional association lists (`none` is Go's nil
map; iteration order of a map is the order of the list).  Machine
integers (`uint32`, `uint64`) are modelled as `Nat`, with an explicit
`% 2^w` at the points where the code performs arithmetic.  External
collaborators (the connection registry and the consensus gateway) are
parameters: reachability of an address is a `String → Bool` argument and
the outcome of `proposeAndWait` is an explicit argument.
-/

namespace Zero

/-- Go `pb.Member`: one physical node (`Id uint64`, `Addr string`,
`GroupId uint32`, `Leader bool`, `AmDead bool`, `ClusterInfoOnly bool`). -/
structure Member where
  id : Nat
  addr : String
  groupId : Nat
  leader : Bool
  amDead : Bool
  clusterInfoOnly : Bool
deriving Repr, DecidableEq

/-- Go `pb.Tablet`: one data partition (`Predicate string`,
`GroupId uint32`, `Space uint64`, `Remove bool`, `Force bool`). -/
structure Tablet where
  predicate : String
  groupId : Nat
  space : Nat
  remove : Bool
  force : Bool
deriving Repr, DecidableEq

/-- A Go map, modelled as an optional association list: `none` is Go's
nil map, `some l` a map whose iteration order is the order of `l`. -/
abbrev GoMap (k v : Type) := Option (List (k × v))

/-- First-match lookup in an association list. -/
def lookupA [DecidableEq k] : List (k × v) → k → Option v
  | [], _ => none
  | (a, b) :: rest, key => if a = key then some b else lookupA rest key

/-- Go map indexing `m[key]`: a nil map behaves as empty. -/
def goGet [DecidableEq k] (m : GoMap k v) (key : k) : Option v :=
  match m with
  | none => none
  | some l => lookupA l key

/-- Go `len` of a map: a nil map has length 0. -/
def goLen (m : GoMap k v) : Nat :=
  (m.getD []).length

/-- Go `delete(m, key)`: removes the entry for `key` (a no-op on nil). -/
def goDelete [DecidableEq k] (m : GoMap k v) (key : k) : GoMap k v :=
  m.map (List.filter (fun p => decide (p.1 ≠ key)))

/-- Go `pb.Group`: a replication unit (`Members map[uint64]*pb.Member`,
`Tablets map[string]*pb.Tablet`, `SnapshotTs uint64`). -/
structure Group where
  members : GoMap Nat Member
  tablets : GoMap String Tablet
  snapshotTs : Nat
deriving Repr, DecidableEq

/-- Go `pb.MembershipState`: the whole-cluster snapshot
(`Groups map[uint32]*pb.Group`, `Zeros map[uint64]*pb.Member`,
`Removed []*pb.Member`, `MaxRaftId uint64`). -/
structure MembershipState where
  groups : GoMap Nat Group
  zeros : GoMap Nat Member
  removed : List Member
  maxRaftId : Nat
deriving Repr, DecidableEq

/-- The fields of `zero.Server` the embedded operations touch:
`state *pb.MembershipState`, `NumReplicas int`, `nextGroup uint32`. -/
structure Server where
  state : MembershipState
  numReplicas : Nat
  nextGroup : Nat
deriving Repr, DecidableEq

/-- Go `pb.ZeroProposal` (the fields `zero.go` sets): `MaxRaftId uint64`
(0 when unset), `Member`, a singleton `SnapshotTs map[uint32]uint64`,
and `Tablet`. -/
structure ZeroProposal where
  maxRaftId : Nat
  member : Option Member
  snapshotTs : Option (Nat × Nat)
  tablet : Option Tablet
deriving Repr, DecidableEq

/-- `(*Server).Init`: empty state with non-nil `Groups`/`Zeros` maps and
`nextGroup = 1`. -/
def Server.Init (numReplicas : Nat) : Server :=
  { state := { groups := some [], zeros := some [], removed := [], maxRaftId := 0 }
    numReplicas := numReplicas
    nextGroup := 1 }

/-- The per-group nil-fix performed by `SetMembershipState`: only a nil
`Tablets` map is replaced by an empty one (`Members` is left alone). -/
def fixGroup (g : Group) : Group :=
  { g with tablets := some (g.tablets.getD []) }

/-- `(*Server).SetMembershipState`: installs `st` wholesale, replacing a
nil `Zeros`/`Groups` map by an empty one and a nil `Tablets` map of each
group by an empty one, then sets `nextGroup = uint32(len(groups) + 1)`. -/
def SetMembershipState (s : Server) (st : MembershipState) : Server :=
  { s with
    state :=
      { st with
        zeros := some (st.zeros.getD [])
        groups := some ((st.groups.getD []).map (fun p => (p.1, fixGroup p.2))) }
    nextGroup := ((st.groups.getD []).length + 1) % 2 ^ 32 }

/-- `(*Server).removeZero`: if `nodeId` is absent from `Zeros`, return
unchanged; otherwise delete it from `Zeros` and append the member to
`Removed`. -/
def removeZero (st : MembershipState) (nodeId : Nat) : MembershipState :=
  match goGet st.zeros nodeId with
  | none => st
  | some m =>
      { st with
        zeros := goDelete st.zeros nodeId
        removed := st.removed ++ [m] }

/-- Inner loop of `ServingTablet`: scan the groups in iteration order and
return the first group's tablet stored under `key`. -/
def findTablet : List (Nat × Group) → String → Option Tablet
  | [], _ => none
  | (_, g) :: rest, key =>
    match goGet g.tablets key with
    | some t => some t
    | none => findTablet rest key

/-- `(*Server).ServingTablet` / `servingTablet`: who currently serves the
tablet named `key`, if anyone. -/
def servingTablet (st : MembershipState) (key : String) : Option Tablet :=
  findTablet (st.groups.getD []) key

/-- The first loop of `Connect`'s `createProposal` closure: does any
group already contain a member with this id? -/
def memberInSomeGroup (st : MembershipState) (id : Nat) : Bool :=
  (st.groups.getD []).any (fun p => (goGet p.2.members id).isSome)

/-- The fallback scan of `createProposal`: the first group (in iteration
order) with fewer members than the replica policy. -/
def findGroupWithCapacity (numReplicas : Nat) : List (Nat × Group) → Option Nat
  | [] => none
  | (gid, g) :: rest =>
    if goLen g.members < numReplicas then some gid
    else findGroupWithCapacity numReplicas rest

/-- Group assignment when neither the caller's preference applies nor an
existing member is found: the first group under capacity, else the
current `nextGroup` value (which is NOT incremented here; see the code
comment about waiting for the commit). -/
def assignGroup (s : Server) (m : Member) : Member :=
  match findGroupWithCapacity s.numReplicas (s.state.groups.getD []) with
  | some gid => { m with groupId := gid }
  | none => { m with groupId := s.nextGroup }

/-- The `createProposal` closure inside `(*Server).Connect`.  It mutates
the request member `m` (id allocation, group assignment) and reads—but
never writes—the server, so the result carries the possibly-updated
member and the (unchanged) server alongside the optional proposal. -/
def createProposal (s : Server) (m0 : Member) : Option ZeroProposal × Member × Server :=
  if memberInSomeGroup s.state m0.id then (none, m0, s)
  else
    let m1 : Member :=
      if m0.id = 0 then { m0 with id := (s.state.maxRaftId + 1) % 2 ^ 64 } else m0
    let maxId : Nat := if m0.id = 0 then m1.id else 0
    let mkProp : Member → Option ZeroProposal × Member × Server := fun m =>
      (some { maxRaftId := maxId, member := some m, snapshotTs := none, tablet := none },
       m, s)
    if m1.groupId > 0 then
      match goGet s.state.groups m1.groupId with
      | none => mkProp m1
      | some group =>
        if (goGet group.members m1.id).isSome then mkProp m1
        else if goLen group.members < s.numReplicas then mkProp m1
        else mkProp (assignGroup s m1)
    else mkProp (assignGroup s m1)

/-- The removed-history check of `Connect`: a removed member of a
non-zero group with the same id makes the request a reused-id error. -/
def reusedRemovedId (removed : List Member) (id : Nat) : Bool :=
  removed.any (fun mem => decide (mem.groupId ≠ 0) && decide (id = mem.id))

/-- The duplicate-identity loop of `Connect`, over the groups in map
iteration order.  Note the `break` as soon as a group does NOT contain
the id: only a prefix of the groups is examined.  `healthy` models
`conn.Get().Get(addr)` succeeding. -/
def duplicateRaftId (healthy : String → Bool) (m : Member) :
    List (Nat × Group) → Bool
  | [] => false
  | (_, g) :: rest =>
    match goGet g.members m.id with
    | none => false
    | some member =>
      if member.addr ≠ m.addr ∧ healthy member.addr then true
      else duplicateRaftId healthy m rest

/-- Outcome of a `proposeAndWait` call against the consensus gateway. -/
inductive ProposeOutcome where
  | ok
  | alreadyServed
  | failed
deriving Repr, DecidableEq

/-- Result of `(*Server).Connect` as seen by the caller. -/
inductive ConnectResult where
  | infoOnly
  | errNoAddr
  | errReuseRemovedId
  | errDuplicateRaftId
  | errProposeFailed
  | connected (m : Member) (proposed : Option ZeroProposal)
deriving Repr, DecidableEq

/-- `(*Server).Connect` (with a non-errored context): the validation
steps, the duplicate-identity check, the `createProposal` closure and
the optional consensus round trip (`proposeOk` is the gateway outcome).
The middle component is the proposal submitted to `proposeAndWait`, if
any; the returned server is the one the function body wrote (it only
reads). -/
def Connect (healthy : String → Bool) (proposeOk : Bool) (s : Server) (m : Member) :
    ConnectResult × Option ZeroProposal × Server :=
  if m.clusterInfoOnly then (.infoOnly, none, s)
  else if m.addr = "" then (.errNoAddr, none, s)
  else if reusedRemovedId s.state.removed m.id then (.errReuseRemovedId, none, s)
  else if duplicateRaftId healthy m (s.state.groups.getD []) then
    (.errDuplicateRaftId, none, s)
  else
    match createProposal s m with
    | (none, m1, s1) => (.connected m1 none, none, s1)
    | (some p, m1, s1) =>
      if proposeOk then (.connected m1 (some p), some p, s1)
      else (.errProposeFailed, some p, s1)

/-- Errors of `createProposals`. -/
inductive ProposalError where
  | invalidGroup
  | unknownMember
deriving Repr, DecidableEq

/-- Natural-number distance, `|a - b|`. -/
def natDist (a b : Nat) : Nat :=
  max a b - min a b

/-- The tablet-diff condition of `createProposals`:
`dstTablet.Remove || (s == 0 && d > 0) || (s > 0 && math.Abs(d/s-1) > 0.1)`.
The `float64` comparison is modelled in exact arithmetic: for `s > 0`,
`|d/s - 1| > 1/10` holds iff `10 * |d - s| > s`. -/
def tabletUpdateNeeded (src dst : Tablet) : Bool :=
  dst.remove ||
    (decide (src.space = 0) && decide (0 < dst.space)) ||
    (decide (0 < src.space) && decide (src.space < 10 * natDist src.space dst.space))

/-- The tablet loop of `createProposals`: for each reported tablet, an
unknown authoritative group is an error, an unknown key is skipped
(tablet in transfer), and a needed update appends a proposal carrying
the reported tablet with its `Force` flag cleared. -/
def tabletProposals (st : MembershipState) :
    List (String × Tablet) → List ZeroProposal → Except ProposalError (List ZeroProposal)
  | [], acc => .ok acc
  | (key, dstTablet) :: rest, acc =>
    match goGet st.groups dstTablet.groupId with
    | none => .error .unknownMember
    | some group =>
      match goGet group.tablets key with
      | none => tabletProposals st rest acc
      | some srcTablet =>
        if tabletUpdateNeeded srcTablet dstTablet then
          tabletProposals st rest
            (acc ++ [{ maxRaftId := 0, member := none, snapshotTs := none,
                       tablet := some { dstTablet with force := false } }])
        else tabletProposals st rest acc

/-- The member comparison of `createProposals`: a changed address or
leader flag yields one member-update proposal, else nothing. -/
def memberDiffProposals (srcMember dstMember : Member) : List ZeroProposal :=
  if srcMember.addr ≠ dstMember.addr ∨ srcMember.leader ≠ dstMember.leader then
    [{ maxRaftId := 0, member := some dstMember, snapshotTs := none, tablet := none }]
  else []

/-- The snapshot comparison of `createProposals`: a strictly larger
reported timestamp yields one snapshot-advance proposal, else nothing. -/
def snapshotProposals (group dst : Group) (gid : Nat) : List ZeroProposal :=
  if group.snapshotTs < dst.snapshotTs then
    [{ maxRaftId := 0, member := none, snapshotTs := some (gid, dst.snapshotTs),
       tablet := none }]
  else []

/-- `(*Server).createProposals`: the diff `UpdateMembership` computes
from a reported group.  More than one reported member is an invalid
group; an unknown group or member id is an error; a changed address or
leader flag yields a member proposal; a non-leader reporter stops before
the snapshot and tablet phases; a strictly larger reported snapshot
timestamp yields a snapshot proposal; then the tablet loop runs. -/
def createProposals (s : Server) (dst : Group) : Except ProposalError (List ZeroProposal) :=
  match dst.members.getD [] with
  | [] => tabletProposals s.state (dst.tablets.getD []) []
  | [(mid, dstMember)] =>
    match goGet s.state.groups dstMember.groupId with
    | none => .error .unknownMember
    | some group =>
      match goGet group.members mid with
      | none => .error .unknownMember
      | some srcMember =>
        if dstMember.leader = false then .ok (memberDiffProposals srcMember dstMember)
        else
          tabletProposals s.state (dst.tablets.getD [])
            (memberDiffProposals srcMember dstMember ++
              snapshotProposals group dst dstMember.groupId)
  | _ => .error .invalidGroup

/-- Modelled from the spec: applying a committed snapshot-advance
proposal ("snapshot timestamp advanced") installs the proposed timestamp
for the group.  The apply step itself lives outside `zero.go`. -/
def applySnapshot (g : Group) (ts : Nat) : Group :=
  { g with snapshotTs := ts }

/-- Result of `(*Server).ShouldServe` as seen by the caller, paired in
`ShouldServe` with whether a proposal was submitted. -/
inductive ServeResult where
  | errEmptyPredicate
  | errZeroGroup
  | errPropose (t : Tablet)
  | assertionFailure
  | serving (t : Tablet)
deriving Repr, DecidableEq

/-- `(*Server).ShouldServe`: validation, ownership lookup, and—only when
the key is unowned—a tablet-creation proposal whose `errTabletAlreadyServed`
outcome is treated like success, followed by a re-read of ownership on
the post-proposal state `after` and the `x.AssertTrue(tab != nil)`
assertion.  The `Bool` records whether a proposal was submitted. -/
def ShouldServe (s : Server) (outcome : ProposeOutcome) (after : MembershipState)
    (tablet : Tablet) : ServeResult × Bool :=
  if tablet.predicate = "" then (.errEmptyPredicate, false)
  else if tablet.groupId = 0 then (.errZeroGroup, false)
  else
    match servingTablet s.state tablet.predicate with
    | some tab => (.serving tab, false)
    | none =>
      let t1 : Tablet := { tablet with force := false }
      if outcome = .failed then (.errPropose t1, true)
      else
        match servingTablet after tablet.predicate with
        | some tab => (.serving tab, true)
        | none => (.assertionFailure, true)

/-! ### Concrete fixtures -/

/-- A member of group 1 at address `alpha:7080`. -/
def memA : Member :=
  { id := 1, addr := "alpha:7080", groupId := 1, leader := true,
    amDead := false, clusterInfoOnly := false }

/-- A single-member group holding `memA`. -/
def groupA : Group :=
  { members := some [(1, memA)], tablets := some [], snapshotTs := 5 }

/-- A server with one group (holding `memA`) and full replication. -/
def srvA : Server :=
  { state := { groups := some [(1, groupA)], zeros := some [], removed := [],
               maxRaftId := 1 }
    numReplicas := 1
    nextGroup := 2 }

/-- A reconnect request for `memA`'s identity at a different address. -/
def memAreq : Member := { memA with addr := "beta:7080" }

/-- A Zero-role member used in the `removeZero` witness. -/
def zMem : Member :=
  { id := 3, addr := "zero:5080", groupId := 0, leader := false,
    amDead := false, clusterInfoOnly := false }

/-- A state with one Zero member, used in the `removeZero` witness. -/
def stZ : MembershipState :=
  { groups := some [], zeros := some [(3, zMem)], removed := [], maxRaftId := 3 }

/-- A group whose member and tablet maps are both nil. -/
def nilMembersGroup : Group :=
  { members := none, tablets := none, snapshotTs := 0 }

/-- A state carrying `nilMembersGroup`, with a nil `Zeros` map. -/
def stNilMembers : MembershipState :=
  { groups := some [(7, nilMembersGroup)], zeros := none, removed := [], maxRaftId := 0 }

/-- The non-nil-maps property the spec claims of every state installed
by `SetMembershipState`: top-level `Zeros` and `Groups` non-nil, and
every group's member and tablet maps non-nil. -/
def allMapsNonNil (st : MembershipState) : Prop :=
  st.zeros ≠ none ∧ st.groups ≠ none ∧
    ∀ p ∈ st.groups.getD [], p.2.members ≠ none ∧ p.2.tablets ≠ none

instance (st : MembershipState) : Decidable (allMapsNonNil st) := by
  unfold allMapsNonNil
  infer_instance

/-- An empty group, listed before the group holding id 7. -/
def groupEmpty : Group :=
  { members := some [], tablets := some [], snapshotTs := 0 }

/-- The existing member with id 7 at the old address. -/
def memOld : Member :=
  { id := 7, addr := "old:7080", groupId := 2, leader := false,
    amDead := false, clusterInfoOnly := false }

/-- A group holding `memOld`. -/
def groupWith7 : Group :=
  { members := some [(7, memOld)], tablets := some [], snapshotTs := 0 }

/-- Two groups in iteration order: the empty one first, then the one
holding id 7. -/
def srvTwoGroups : Server :=
  { state := { groups := some [(1, groupEmpty), (2, groupWith7)], zeros := some [],
               removed := [], maxRaftId := 7 }
    numReplicas := 1
    nextGroup := 3 }

/-- A re-registration of id 7 from a new address. -/
def memNew7 : Member :=
  { id := 7, addr := "new:7080", groupId := 0, leader := false,
    amDead := false, clusterInfoOnly := false }

/-- A reachability oracle under which every address is healthy. -/
def allHealthy : String → Bool := fun _ => true

/-- `memA` reporting itself without the leader flag. -/
def dmC6 : Member := { memA with leader := false }

/-- A non-leader report from `memA`, also carrying a tablet marked for
removal and a larger snapshot timestamp. -/
def dstC6 : Group :=
  { members := some [(1, dmC6)]
    tablets := some [("p", { predicate := "p", groupId := 1, space := 1000,
                             remove := true, force := false })]
    snapshotTs := 99 }

/-- The member-update proposal the non-leader report yields. -/
def mpC6 : ZeroProposal :=
  { maxRaftId := 0, member := some dmC6, snapshotTs := none, tablet := none }

/-- The authoritative tablet `p` with space 100. -/
def srcT100 : Tablet :=
  { predicate := "p", groupId := 1, space := 100, remove := false, force := false }

/-- The same tablet reported with space 95 (within the 10% band). -/
def dt95 : Tablet := { srcT100 with space := 95 }

/-- The same tablet reported with space 80 (outside the 10% band). -/
def dt80 : Tablet := { srcT100 with space := 80 }

/-- A group holding `memA` and serving tablet `p` at space 100, with
snapshot timestamp 5. -/
def groupT : Group :=
  { members := some [(1, memA)], tablets := some [("p", srcT100)], snapshotTs := 5 }

/-- A server whose only group is `groupT`. -/
def srvT : Server :=
  { state := { groups := some [(1, groupT)], zeros := some [], removed := [],
               maxRaftId := 1 }
    numReplicas := 1
    nextGroup := 2 }

/-- A leader report carrying tablet `p` at space 95. -/
def dst95 : Group :=
  { members := some [(1, memA)], tablets := some [("p", dt95)], snapshotTs := 0 }

/-- A leader report carrying tablet `p` at space 80. -/
def dst80 : Group :=
  { members := some [(1, memA)], tablets := some [("p", dt80)], snapshotTs := 0 }

/-- The tablet-update proposal the space-80 report yields. -/
def tp80 : ZeroProposal :=
  { maxRaftId := 0, member := none, snapshotTs := none, tablet := some dt80 }

/-- A leader report advancing the snapshot timestamp from 5 to 9. -/
def dstSnap : Group :=
  { members := some [(1, memA)], tablets := some [], snapshotTs := 9 }

/-- The snapshot-advance proposal the `dstSnap` report yields. -/
def spSnap : ZeroProposal :=
  { maxRaftId := 0, member := none, snapshotTs := some (1, 9), tablet := none }

/-- A ShouldServe request for tablet `p` from group 2. -/
def tReq : Tablet :=
  { predicate := "p", groupId := 2, space := 0, remove := false, force := true }

/-! ### Helper lemmas -/

/-- The `createProposal` closure only reads the server: every branch
returns it unchanged. -/
theorem createProposal_server (s : Server) (m : Member) :
    (createProposal s m).2.2 = s := by
  unfold createProposal
  split
  · rfl
  · dsimp only
    repeat' split
    all_goals rfl

theorem lookupA_filter_self [DecidableEq k] (l : List (k × v)) (key : k) :
    lookupA (l.filter (fun p => decide (p.1 ≠ key))) key = none := by
  induction l with
  | nil => rfl
  | cons a rest ih =>
    obtain ⟨a1, a2⟩ := a
    rw [List.filter_cons]
    by_cases h : a1 = key
    · simpa [h] using ih
    · simpa [h, lookupA] using ih

theorem lookupA_filter_ne [DecidableEq k] (l : List (k × v)) (key k2 : k)
    (h : k2 ≠ key) :
    lookupA (l.filter (fun p => decide (p.1 ≠ key))) k2 = lookupA l k2 := by
  induction l with
  | nil => rfl
  | cons a rest ih =>
    obtain ⟨a1, a2⟩ := a
    rw [List.filter_cons]
    by_cases ha : a1 = key
    · simpa [ha, lookupA, Ne.symm h] using ih
    · by_cases hk : a1 = k2
      · simp [ha, lookupA, hk, h]
      · simpa [ha, lookupA, hk] using ih

theorem goGet_goDelete_self [DecidableEq k] (m : GoMap k v) (key : k) :
    goGet (goDelete m key) key = none := by
  cases m with
  | none => rfl
  | some l => simpa [goDelete, goGet] using lookupA_filter_self l key

theorem goGet_goDelete_ne [DecidableEq k] (m : GoMap k v) (key k2 : k)
    (h : k2 ≠ key) :
    goGet (goDelete m key) k2 = goGet m k2 := by
  cases m with
  | none => rfl
  | some l => simpa [goDelete, goGet] using lookupA_filter_ne l key k2 h

/-- Proposals from the member comparison carry no snapshot or tablet
field. -/
theorem memberDiffProposals_shape (srcMember dstMember : Member) :
    ∀ p ∈ memberDiffProposals srcMember dstMember,
      p.snapshotTs = none ∧ p.tablet = none := by
  intro p hp
  unfold memberDiffProposals at hp
  split at hp <;> simp_all

/-- Proposals from the snapshot comparison carry exactly the reported
timestamp and no member or tablet field. -/
theorem snapshotProposals_shape (group dst : Group) (gid : Nat) :
    ∀ p ∈ snapshotProposals group dst gid,
      p.member = none ∧ p.tablet = none ∧
        p.snapshotTs = some (gid, dst.snapshotTs) := by
  intro p hp
  unfold snapshotProposals at hp
  split at hp <;> simp_all

/-- The snapshot comparison emits something iff the reported timestamp
strictly exceeds the authoritative one. -/
theorem snapshotProposals_ne_nil_iff (group dst : Group) (gid : Nat) :
    snapshotProposals group dst gid ≠ [] ↔ group.snapshotTs < dst.snapshotTs := by
  unfold snapshotProposals
  split <;> simp_all

/-- Every proposal the tablet loop adds beyond its accumulator is a pure
tablet proposal. -/
theorem tabletProposals_mem (st : MembershipState) (ts : List (String × Tablet)) :
    ∀ acc res : List ZeroProposal, tabletProposals st ts acc = .ok res →
      ∀ p ∈ res, p ∈ acc ∨ (p.member = none ∧ p.snapshotTs = none ∧ p.tablet ≠ none) := by
  induction ts with
  | nil =>
    intro acc res hok p hp
    simp only [tabletProposals, Except.ok.injEq] at hok
    subst hok
    exact Or.inl hp
  | cons t rest ih =>
    obtain ⟨key, dt⟩ := t
    intro acc res hok p hp
    unfold tabletProposals at hok
    cases hg : goGet st.groups dt.groupId with
    | none => rw [hg] at hok; cases hok
    | some group =>
      rw [hg] at hok
      dsimp only at hok
      cases hs : goGet group.tablets key with
      | none =>
        rw [hs] at hok
        exact ih acc res hok p hp
      | some srcT =>
        rw [hs] at hok
        dsimp only at hok
        by_cases hu : tabletUpdateNeeded srcT dt = true
        · rw [if_pos hu] at hok
          rcases ih _ res hok p hp with hin | hshape
          · rcases List.mem_append.mp hin with h1 | h2
            · exact Or.inl h1
            · right
              simp only [List.mem_singleton] at h2
              subst h2
              simp
          · exact Or.inr hshape
        · rw [if_neg hu] at hok
          exact ih acc res hok p hp

/-- The tablet loop keeps everything already in its accumulator. -/
theorem tabletProposals_acc_subset (st : MembershipState) (ts : List (String × Tablet)) :
    ∀ acc res : List ZeroProposal, tabletProposals st ts acc = .ok res →
      ∀ p ∈ acc, p ∈ res := by
  induction ts with
  | nil =>
    intro acc res hok p hp
    simp only [tabletProposals, Except.ok.injEq] at hok
    subst hok
    exact hp
  | cons t rest ih =>
    obtain ⟨key, dt⟩ := t
    intro acc res hok p hp
    unfold tabletProposals at hok
    cases hg : goGet st.groups dt.groupId with
    | none => rw [hg] at hok; cases hok
    | some group =>
      rw [hg] at hok
      dsimp only at hok
      cases hs : goGet group.tablets key with
      | none =>
        rw [hs] at hok
        exact ih acc res hok p hp
      | some srcT =>
        rw [hs] at hok
        dsimp only at hok
        by_cases hu : tabletUpdateNeeded srcT dt = true
        · rw [if_pos hu] at hok
          exact ih _ res hok p (List.mem_append.mpr (Or.inl hp))
        · rw [if_neg hu] at hok
          exact ih acc res hok p hp

/-- The tablet loop on an empty report returns its accumulator. -/
theorem tabletProposals_nil (st : MembershipState) (acc : List ZeroProposal) :
    tabletProposals st [] acc = .ok acc := rfl

/-- Characterization of the tablet-diff condition as a proposition. -/
theorem tabletUpdateNeeded_iff (src dst : Tablet) :
    tabletUpdateNeeded src dst = true ↔
      (dst.remove = true ∨ (src.space = 0 ∧ 0 < dst.space) ∨
        (0 < src.space ∧ src.space < 10 * natDist src.space dst.space)) := by
  unfold tabletUpdateNeeded
  simp [Bool.or_eq_true, Bool.and_eq_true, decide_eq_true_iff, or_assoc]

/-- Membership in the snapshot comparison's output forces the strict
timestamp increase and fixes the proposal's payload. -/
theorem snapshotProposals_mem (group dst : Group) (gid : Nat) (p : ZeroProposal)
    (hp : p ∈ snapshotProposals group dst gid) :
    group.snapshotTs < dst.snapshotTs ∧
    p.snapshotTs = some (gid, dst.snapshotTs) := by
  unfold snapshotProposals at hp
  split at hp <;> simp_all

/-! ### Claim theorems -/

/-- C1: after every wholesale state replacement via `SetMembershipState`
the `nextGroup` counter equals the number of groups in the installed
state plus one, and `Connect`'s proposal-creation step returns the
server unchanged, so it never modifies `nextGroup` — a new-group
proposal uses the current `nextGroup` value without incrementing it. -/
theorem nextGroup_after_replacement_and_connect (s s2 : Server) (st : MembershipState)
    (m : Member) (h : (st.groups.getD []).length + 1 < 2 ^ 32) :
    (SetMembershipState s st).nextGroup
        = goLen (SetMembershipState s st).state.groups + 1 ∧
    ((createProposal s2 m).2.2).nextGroup = s2.nextGroup := by
  constructor
  · have h2 : (st.groups.getD []).length + 1 < 4294967296 := by simpa using h
    simp [SetMembershipState, goLen, Nat.mod_eq_of_lt h2]
  · rw [createProposal_server]

theorem nextGroup_after_replacement_and_connect_witness :
    (SetMembershipState (Server.Init 1) srvA.state).nextGroup
        = goLen (SetMembershipState (Server.Init 1) srvA.state).state.groups + 1 ∧
    ((createProposal srvA memAreq).2.2).nextGroup = srvA.nextGroup :=
  nextGroup_after_replacement_and_connect (Server.Init 1) srvA srvA.state memAreq
    (by decide)

/-- C2 counterexample: member id 1 exists in group 1 at address
`alpha:7080`; a Connect request for id 1 at the changed address
`beta:7080` produces NO proposal, while the claim requires a
member-update proposal when fields changed. -/
theorem connect_changed_fields_no_proposal :
    goGet groupA.members memAreq.id = some memA ∧
    memA.addr ≠ memAreq.addr ∧
    (createProposal srvA memAreq).1 = none := by
  decide

/-- C2 (amended): for every Connect request whose identity already
exists in some group of the current state, proposal creation yields no
proposal — whether or not the descriptor's fields changed. -/
theorem connect_existing_member_no_proposal (s : Server) (m : Member)
    (h : memberInSomeGroup s.state m.id = true) :
    (createProposal s m).1 = none := by
  simp [createProposal, h]

theorem connect_existing_member_no_proposal_witness :
    memberInSomeGroup srvA.state memA.id = true ∧
    (createProposal srvA memA).1 = none :=
  ⟨by decide, connect_existing_member_no_proposal srvA memA (by decide)⟩

/-- C3 counterexample: installing a state whose group 7 carries a nil
member map leaves that member map nil — `SetMembershipState` nil-fixes
`Zeros`, `Groups` and each group's `Tablets`, but never a group's
`Members`. -/
theorem setMembershipState_nil_members_counterexample :
    ¬ allMapsNonNil (SetMembershipState (Server.Init 1) stNilMembers).state := by
  decide

/-- C3 (amended): after `SetMembershipState` the top-level `Zeros` and
`Groups` maps are non-nil and every group's tablet map is non-nil; a
group's member map, however, is installed exactly as supplied and may
remain nil. -/
theorem setMembershipState_nonNil (s : Server) (st : MembershipState) :
    (SetMembershipState s st).state.zeros ≠ none ∧
    (SetMembershipState s st).state.groups ≠ none ∧
    ∀ p ∈ (SetMembershipState s st).state.groups.getD [], p.2.tablets ≠ none := by
  refine ⟨by simp [SetMembershipState], by simp [SetMembershipState], ?_⟩
  intro p hp
  simp only [SetMembershipState, Option.getD_some] at hp
  obtain ⟨q, hq, rfl⟩ := List.mem_map.mp hp
  simp [fixGroup]

/-- C10: `removeZero` with an absent id leaves the state unchanged; with
a present id it removes exactly that entry from `Zeros` (every other key
reads the same), appends exactly that member to the removed history, and
leaves the other fields (`Groups`, `MaxRaftId`) unchanged. -/
theorem removeZero_frame (st : MembershipState) (nodeId : Nat) :
    (goGet st.zeros nodeId = none → removeZero st nodeId = st) ∧
    ∀ m, goGet st.zeros nodeId = some m →
      goGet (removeZero st nodeId).zeros nodeId = none ∧
      (∀ k2, k2 ≠ nodeId → goGet (removeZero st nodeId).zeros k2 = goGet st.zeros k2) ∧
      (removeZero st nodeId).removed = st.removed ++ [m] ∧
      (removeZero st nodeId).groups = st.groups ∧
      (removeZero st nodeId).maxRaftId = st.maxRaftId := by
  constructor
  · intro h
    simp [removeZero, h]
  · intro m hm
    refine ⟨by simp [removeZero, hm, goGet_goDelete_self], ?_,
            by simp [removeZero, hm], by simp [removeZero, hm],
            by simp [removeZero, hm]⟩
    intro k2 hk
    simp [removeZero, hm, goGet_goDelete_ne st.zeros nodeId k2 hk]

/-- C5 counterexample: id 7 exists in group 2 at the still-healthy old
address, yet `Connect` does not reject — the duplicate-identity loop
breaks out at group 1 (which does not contain id 7) before ever
examining group 2, and the request completes without a proposal. -/
theorem connect_duplicate_skipped_counterexample :
    goGet groupWith7.members memNew7.id = some memOld ∧
    memOld.addr ≠ memNew7.addr ∧
    allHealthy memOld.addr = true ∧
    (Connect allHealthy true srvTwoGroups memNew7).1 = .connected memNew7 none := by
  decide

/-- C5 (amended): `Connect` rejects with the duplicate-identity error
and submits no proposal when the first group in iteration order contains
the identity at a different, still-healthy address; the check loop
breaks at the first group not containing the id, so members recorded
only in later groups escape it. -/
theorem connect_duplicate_first_group (healthy : String → Bool) (pOk : Bool)
    (s : Server) (m : Member) (gid : Nat) (g : Group) (rest : List (Nat × Group))
    (member : Member)
    (hinfo : m.clusterInfoOnly = false)
    (haddr : m.addr ≠ "")
    (hreuse : reusedRemovedId s.state.removed m.id = false)
    (hgroups : s.state.groups.getD [] = (gid, g) :: rest)
    (hmem : goGet g.members m.id = some member)
    (hne : member.addr ≠ m.addr)
    (hh : healthy member.addr = true) :
    (Connect healthy pOk s m).1 = .errDuplicateRaftId ∧
    (Connect healthy pOk s m).2.1 = none := by
  unfold Connect
  rw [hgroups]
  simp [hinfo, haddr, hreuse, duplicateRaftId, hmem, hne, hh]

theorem connect_duplicate_first_group_witness :
    (Connect allHealthy true srvA memAreq).1 = .errDuplicateRaftId ∧
    (Connect allHealthy true srvA memAreq).2.1 = none :=
  connect_duplicate_first_group allHealthy true srvA memAreq 1 groupA [] memA
    (by decide) (by decide) (by decide) (by decide) (by decide) (by decide) (by decide)

theorem removeZero_frame_witness :
    goGet (removeZero stZ 3).zeros 3 = none ∧
    (removeZero stZ 3).removed = stZ.removed ++ [zMem] ∧
    removeZero stZ 4 = stZ :=
  ⟨((removeZero_frame stZ 3).2 zMem (by decide)).1,
   ((removeZero_frame stZ 3).2 zMem (by decide)).2.2.1,
   (removeZero_frame stZ 4).1 (by decide)⟩

/-- C6: a report whose single member is not flagged leader yields at
most member-update proposals from the diff: no snapshot-advance proposal
and no tablet-update proposal, for any set of reported tablets. -/
theorem nonleader_report_members_only (s : Server) (dst : Group) (mid : Nat)
    (dm : Member) (res : List ZeroProposal)
    (hmem : dst.members = some [(mid, dm)])
    (hlead : dm.leader = false)
    (hok : createProposals s dst = .ok res) :
    ∀ p ∈ res, p.snapshotTs = none ∧ p.tablet = none := by
  unfold createProposals at hok
  rw [hmem] at hok
  simp only [Option.getD_some] at hok
  cases hg : goGet s.state.groups dm.groupId with
  | none => rw [hg] at hok; cases hok
  | some group =>
    rw [hg] at hok
    dsimp only at hok
    cases hs : goGet group.members mid with
    | none => rw [hs] at hok; cases hok
    | some srcMember =>
      rw [hs] at hok
      dsimp only at hok
      rw [if_pos hlead] at hok
      simp only [Except.ok.injEq] at hok
      subst hok
      exact memberDiffProposals_shape srcMember dm

theorem nonleader_report_members_only_witness :
    mpC6.snapshotTs = none ∧ mpC6.tablet = none :=
  nonleader_report_members_only srvA dstC6 1 dmC6 [mpC6]
    (by decide) (by decide) (by rfl) mpC6 (by simp)

/-- C7: for a leader report passing the member checks, the diff emits a
snapshot-advance proposal iff the reported snapshot timestamp strictly
exceeds the authoritative one; every snapshot proposal carries exactly
the reported timestamp, strictly above the authoritative one, so
installing it never regresses the group's snapshot timestamp. -/
theorem snapshot_advance_iff_monotonic (s : Server) (dst : Group) (mid : Nat)
    (dm : Member) (group : Group) (srcMember : Member) (res : List ZeroProposal)
    (hmem : dst.members = some [(mid, dm)])
    (hlead : dm.leader = true)
    (hg : goGet s.state.groups dm.groupId = some group)
    (hsm : goGet group.members mid = some srcMember)
    (hok : createProposals s dst = .ok res) :
    ((∃ p ∈ res, p.snapshotTs ≠ none) ↔ group.snapshotTs < dst.snapshotTs) ∧
    ∀ p ∈ res, ∀ gid ts, p.snapshotTs = some (gid, ts) →
      gid = dm.groupId ∧ ts = dst.snapshotTs ∧ group.snapshotTs < ts ∧
      group.snapshotTs ≤ (applySnapshot group ts).snapshotTs := by
  unfold createProposals at hok
  rw [hmem] at hok
  simp only [Option.getD_some] at hok
  rw [hg] at hok
  dsimp only at hok
  rw [hsm] at hok
  dsimp only at hok
  rw [if_neg (by simp [hlead])] at hok
  have hsub := tabletProposals_acc_subset s.state (dst.tablets.getD []) _ res hok
  have hmem2 := tabletProposals_mem s.state (dst.tablets.getD []) _ res hok
  have hres1 : ∀ p ∈ memberDiffProposals srcMember dm ++
      snapshotProposals group dst dm.groupId,
      p.snapshotTs ≠ none → p ∈ snapshotProposals group dst dm.groupId := by
    intro p hp hne
    rcases List.mem_append.mp hp with h1 | h2
    · exact absurd (memberDiffProposals_shape srcMember dm p h1).1 hne
    · exact h2
  constructor
  · constructor
    · rintro ⟨p, hp, hne⟩
      rcases hmem2 p hp with hin | hshape
      · exact (snapshotProposals_mem group dst dm.groupId p (hres1 p hin hne)).1
      · exact absurd hshape.2.1 hne
    · intro hlt
      refine ⟨{ maxRaftId := 0, member := none,
                snapshotTs := some (dm.groupId, dst.snapshotTs), tablet := none },
              ?_, by simp⟩
      apply hsub
      apply List.mem_append.mpr
      right
      unfold snapshotProposals
      rw [if_pos hlt]
      simp
  · intro p hp gid ts hpts
    have hne : p.snapshotTs ≠ none := by simp [hpts]
    have hinSnap : p ∈ snapshotProposals group dst dm.groupId := by
      rcases hmem2 p hp with hin | hshape
      · exact hres1 p hin hne
      · exact absurd hshape.2.1 hne
    obtain ⟨hlt, hts⟩ := snapshotProposals_mem group dst dm.groupId p hinSnap
    rw [hpts] at hts
    have h2 : (gid, ts) = (dm.groupId, dst.snapshotTs) := Option.some.inj hts
    have hgid : gid = dm.groupId := congrArg Prod.fst h2
    have hts2 : ts = dst.snapshotTs := congrArg Prod.snd h2
    subst hts2
    exact ⟨hgid, rfl, hlt, le_of_lt hlt⟩

theorem snapshot_advance_iff_monotonic_witness :
    (∃ p ∈ [spSnap], p.snapshotTs ≠ none) ↔ groupT.snapshotTs < dstSnap.snapshotTs :=
  (snapshot_advance_iff_monotonic srvT dstSnap 1 memA groupT memA [spSnap]
    (by decide) (by decide) (by decide) (by decide) (by rfl)).1

/-- C4: for a leader report passing the member checks and carrying one
tablet whose key is already known to its authoritative group, the diff
emits a tablet-update proposal iff the tablet is marked for removal, or
its space went from zero to nonzero, or its space changed by more than
10% of the prior value (the `float64` comparison modelled exactly: for
prior space `s > 0`, `|d/s - 1| > 1/10` iff `10*|d - s| > s`). -/
theorem tablet_update_iff (s : Server) (dst : Group) (mid : Nat) (dm : Member)
    (group : Group) (srcMember : Member) (key : String) (dt : Tablet)
    (tgroup : Group) (srcT : Tablet) (res : List ZeroProposal)
    (hmem : dst.members = some [(mid, dm)])
    (hlead : dm.leader = true)
    (hg : goGet s.state.groups dm.groupId = some group)
    (hsm : goGet group.members mid = some srcMember)
    (htab : dst.tablets = some [(key, dt)])
    (htg : goGet s.state.groups dt.groupId = some tgroup)
    (hst : goGet tgroup.tablets key = some srcT)
    (hok : createProposals s dst = .ok res) :
    (∃ p ∈ res, p.tablet ≠ none) ↔
      (dt.remove = true ∨ (srcT.space = 0 ∧ 0 < dt.space) ∨
        (0 < srcT.space ∧ srcT.space < 10 * natDist srcT.space dt.space)) := by
  unfold createProposals at hok
  rw [hmem] at hok
  simp only [Option.getD_some] at hok
  rw [hg] at hok
  dsimp only at hok
  rw [hsm] at hok
  dsimp only at hok
  rw [if_neg (by simp [hlead])] at hok
  rw [htab] at hok
  simp only [Option.getD_some] at hok
  unfold tabletProposals at hok
  rw [htg] at hok
  dsimp only at hok
  rw [hst] at hok
  dsimp only at hok
  have hshape : ∀ p ∈ memberDiffProposals srcMember dm ++
      snapshotProposals group dst dm.groupId, p.tablet = none := by
    intro p hp
    rcases List.mem_append.mp hp with h1 | h2
    · exact (memberDiffProposals_shape srcMember dm p h1).2
    · exact (snapshotProposals_shape group dst dm.groupId p h2).2.1
  by_cases hu : tabletUpdateNeeded srcT dt = true
  · rw [if_pos hu] at hok
    rw [tabletProposals_nil] at hok
    simp only [Except.ok.injEq] at hok
    subst hok
    rw [← tabletUpdateNeeded_iff]
    simp only [hu, iff_true]
    exact ⟨{ maxRaftId := 0, member := none, snapshotTs := none,
             tablet := some { predicate := dt.predicate, groupId := dt.groupId,
                              space := dt.space, remove := dt.remove, force := false } },
           List.mem_append.mpr (Or.inr (List.mem_singleton.mpr rfl)), by simp⟩
  · rw [if_neg hu] at hok
    rw [tabletProposals_nil] at hok
    simp only [Except.ok.injEq] at hok
    subst hok
    rw [← tabletUpdateNeeded_iff]
    constructor
    · rintro ⟨p, hp, hne⟩
      exact absurd (hshape p hp) hne
    · intro hr
      exact absurd hr hu

theorem tablet_update_iff_witness :
    (¬ ∃ p ∈ ([] : List ZeroProposal), p.tablet ≠ none) ∧
    (∃ p ∈ [tp80], p.tablet ≠ none) := by
  constructor
  · intro hex
    have h := (tablet_update_iff srvT dst95 1 memA groupT memA "p" dt95 groupT srcT100 []
        (by decide) (by decide) (by decide) (by decide) (by decide) (by decide) (by decide)
        (by rfl)).mp hex
    exact absurd h (by decide)
  · exact (tablet_update_iff srvT dst80 1 memA groupT memA "p" dt80 groupT srcT100 [tp80]
        (by decide) (by decide) (by decide) (by decide) (by decide) (by decide) (by decide)
        (by rfl)).mpr (by decide)

/-- C8: a ShouldServe request with a non-empty predicate and a nonzero
group identity whose key is already owned returns the existing tablet —
whatever its owning group — and submits no proposal. -/
theorem shouldServe_existing (s : Server) (outcome : ProposeOutcome)
    (after : MembershipState) (t tab : Tablet)
    (hpred : t.predicate ≠ "")
    (hgid : t.groupId ≠ 0)
    (hserv : servingTablet s.state t.predicate = some tab) :
    ShouldServe s outcome after t = (.serving tab, false) := by
  unfold ShouldServe
  rw [if_neg hpred, if_neg hgid, hserv]

theorem shouldServe_existing_witness :
    ShouldServe srvT ProposeOutcome.ok srvT.state tReq = (.serving srcT100, false) :=
  shouldServe_existing srvT ProposeOutcome.ok srvT.state tReq srcT100
    (by decide) (by decide) (by decide)

/-- C9: when the key is unowned, the distinguished already-served
outcome from the proposal path is handled exactly like success, and
whenever the proposal committed (the post-proposal state owns the key)
the re-read returns that owner, so the assertion after the proposal
never fires. -/
theorem shouldServe_claim_no_assert (s : Server) (outcome : ProposeOutcome)
    (after : MembershipState) (t tab : Tablet)
    (hpred : t.predicate ≠ "")
    (hgid : t.groupId ≠ 0)
    (hnone : servingTablet s.state t.predicate = none)
    (hout : outcome ≠ ProposeOutcome.failed)
    (hafter : servingTablet after t.predicate = some tab) :
    ShouldServe s ProposeOutcome.alreadyServed after t
        = ShouldServe s ProposeOutcome.ok after t ∧
    ShouldServe s outcome after t = (.serving tab, true) ∧
    (ShouldServe s outcome after t).1 ≠ ServeResult.assertionFailure := by
  refine ⟨rfl, ?_, ?_⟩ <;>
    simp [ShouldServe, hpred, hgid, hnone, hafter, hout]

theorem shouldServe_claim_no_assert_witness :
    ShouldServe srvA ProposeOutcome.alreadyServed srvT.state tReq
        = ShouldServe srvA ProposeOutcome.ok srvT.state tReq ∧
    ShouldServe srvA ProposeOutcome.alreadyServed srvT.state tReq
        = (.serving srcT100, true) ∧
    (ShouldServe srvA ProposeOutcome.alreadyServed srvT.state tReq).1
        ≠ ServeResult.assertionFailure :=
  shouldServe_claim_no_assert srvA ProposeOutcome.alreadyServed srvT.state tReq srcT100
    (by decide) (by decide) (by decide) (by decide) (by decide)

end Zero
